import Mathlib

/-!
Shallow embedding of the plan-execute-reflect control loop of
`src/ResearchAgent.py` (class `ResearchAgent` and its helpers), and proofs
of the behavioural claims about it.

Modelling conventions:
* the language-model client (`LMStudioClient.chat_completion`), the search
  tool (`WebSearchTool.search_duckduckgo`), the page fetcher
  (`WebSearchTool.fetch_webpage`) and the report file write are external
  collaborators; they are passed in as an `Env` of oracle functions;
* Python `Optional[str]` becomes `Option String`, Python string truthiness
  (`if step.result:`) is made explicit (`resultTruthy`);
* Python string slicing `s[:n]` by code points becomes `strTake n s`;
* a Python exception escaping `execute_step` is modelled, at the
  orchestrator level, by an executor returning `Except String _`, the error
  carrying `str(e)`; a failing `open`/`write` in `generate_final_report`
  is modelled by the `writeFile` oracle returning `Except.error`.
-/

/-- One chat message dict `\x7b"role": ..., "content": ...\x7d` passed to
`LMStudioClient.chat_completion`. -/
structure Message where
  role : String
  content : String
deriving DecidableEq, Repr

/-- One search-result dict produced by `WebSearchTool.search_duckduckgo`. -/
structure SearchResult where
  title : String
  url : String
  snippet : String
  source : String
deriving DecidableEq, Repr

/-- The `ResearchStep` dataclass of `ResearchAgent.py` (lines 14-24):
`step_id`, `description`, `status` (default `"pending"`), `result`
(default `None`) and `tools_used` (default `[]`, via `__post_init__`). -/
structure ResearchStep where
  step_id : Int
  description : String
  status : String := "pending"
  result : Option String := none
  tools_used : List String := []
deriving DecidableEq, Repr

/-- The `ResearchPlan` dataclass (lines 26-32). -/
structure ResearchPlan where
  topic : String
  objective : String
  steps : List ResearchStep
  created_at : String
  updated_at : String
deriving DecidableEq, Repr

/-- External collaborators of the core loop.  `chat` models
`LMStudioClient.chat_completion` (which absorbs every transport error into
an `"Error: ..."` string, hence is total); `search` models
`search_duckduckgo` with its default `num_results`; `fetchWebpage` models
`fetch_webpage`; `writeFile filename content` models the
`open(filename, 'w')` / `f.write` calls of `generate_final_report`, with
`Except.error` standing for a raised `OSError`; `timestamp` and `isoNow`
model the two `datetime.now()` reads there. -/
structure Env where
  chat : List Message → String
  search : String → List SearchResult
  fetchWebpage : String → String
  writeFile : String → String → Except String Unit
  timestamp : String
  isoNow : String

/-- Python string slicing `s[:n]` (by code points). -/
def strTake (n : Nat) (s : String) : String :=
  String.mk (s.toList.take n)

/-- Python string slicing `s[n:]` (by code points). -/
def strDrop (n : Nat) (s : String) : String :=
  String.mk (s.toList.drop n)

/-- Python truthiness of an `Optional[str]`: `None` and `""` are falsy. -/
def resultTruthy : Option String → Bool
  | none => false
  | some r => r != ""

/-- The character `\x7b`. -/
def lbrace : Char := Char.ofNat 123

/-- The character `\x7d`. -/
def rbrace : Char := Char.ofNat 125

/-- Models `re.search` with the greedy pattern "open brace, any characters
including newlines, close brace" used at line 201 of
`create_research_plan`: a match exists iff some closing brace occurs
strictly after the first opening brace, and the (greedy) match then runs
from the first opening brace to the last closing brace. -/
def extractJsonBlock (response : String) : Option String :=
  let cs := response.toList
  match cs.findIdx? (fun c => c == lbrace) with
  | none => none
  | some i =>
    match cs.reverse.findIdx? (fun c => c == rbrace) with
    | none => none
    | some rj =>
      let j := cs.length - 1 - rj
      if i < j then some (String.mk ((cs.drop i).take (j - i + 1))) else none

/-- One entry of the `"steps"` array of the JSON object the model is asked
to return; each field is `Option` because the corresponding dict key may be
absent (Python would then raise `KeyError` on `step["step_id"]` /
`step["description"]`, while `step.get("tools_needed", [])` defaults). -/
structure RawStep where
  step_id : Option Int
  description : Option String
  tools_needed : Option (List String)
deriving DecidableEq, Repr

/-- The parsed JSON object; `steps = none` models a dict without a
`"steps"` key (`plan_data["steps"]` would raise `KeyError`). -/
structure RawPlan where
  steps : Option (List RawStep)
deriving DecidableEq, Repr

/-- The body of the list comprehension at lines 204-211: build a
`ResearchStep` from one parsed entry; a missing mandatory key is the
`KeyError` the surrounding `try` catches. -/
def buildStep (raw : RawStep) : Except String ResearchStep :=
  match raw.step_id, raw.description with
  | some i, some d =>
    .ok { step_id := i, description := d, tools_used := raw.tools_needed.getD [] }
  | none, _ => .error "KeyError: step_id"
  | some _, none => .error "KeyError: description"

/-- `ResearchAgent._create_default_plan` (lines 231-240), transliterated. -/
def createDefaultPlan : List ResearchStep :=
  [ { step_id := 1, description := "Define key concepts and terminology", tools_used := ["web_search"] },
    { step_id := 2, description := "Search for recent academic sources", tools_used := ["web_search"] },
    { step_id := 3, description := "Gather statistical data and facts", tools_used := ["web_search"] },
    { step_id := 4, description := "Find expert opinions and analysis", tools_used := ["web_search"] },
    { step_id := 5, description := "Identify controversies or debates", tools_used := ["web_search"] },
    { step_id := 6, description := "Synthesize findings", tools_used := [] } ]

/-- The parsing part of `ResearchAgent.create_research_plan`
(lines 199-218): extract the first-to-last brace block from the model
response, JSON-parse it (`jsonLoads` is the `json.loads` oracle), read its
`"steps"` array and map every entry through `buildStep`; on any failure
(`else` branch or caught exception) fall back to the default plan. -/
def createResearchPlan (jsonLoads : String → Except String RawPlan)
    (response : String) : List ResearchStep :=
  match extractJsonBlock response with
  | some block =>
    match jsonLoads block with
    | .ok planData =>
      match planData.steps with
      | some raws =>
        match raws.mapM buildStep with
        | .ok steps => steps
        | .error _ => createDefaultPlan
      | none => createDefaultPlan
    | .error _ => createDefaultPlan
  | none => createDefaultPlan

/-- The two messages built at lines 257-266 of `_execute_web_search_step`
to ask the model for search queries. -/
def queryMessages (plan : ResearchPlan) (step : ResearchStep) : List Message :=
  [ { role := "system",
      content := "Generate 1-3 specific search queries for this research step. Return only the queries, one per line." },
    { role := "user",
      content := "Research topic: " ++ plan.topic ++ "\nStep: " ++ step.description ++ "\nGenerate search queries:" } ]

/-- Line 269: strip each line of the model reply, drop empty ones, keep at
most 3 queries. -/
def parseQueries (queryResponse : String) : List String :=
  (((queryResponse.splitOn "\n").map String.trim).filter (fun q => q != "")).take 3

/-- Lines 280-281: of `all_results[:3]`, the results whose `url` is truthy
are the ones whose page content gets fetched. -/
def fetchedResults (allResults : List SearchResult) : List SearchResult :=
  (allResults.take 3).filter (fun r => r.url != "")

/-- Line 284: the content sample appended for one fetched result, with the
fetched page text truncated to its first 1000 code points. -/
def contentSample (env : Env) (r : SearchResult) : String :=
  "Source: " ++ r.title ++ "\nURL: " ++ r.url ++ "\nContent: " ++
    strTake 1000 (env.fetchWebpage r.url) ++ "..."

/-- The analysis messages built at lines 287-296. -/
def analysisMessages (step : ResearchStep) (contentSamples : List String) : List Message :=
  [ { role := "system",
      content := "Analyze the search results and provide a clear, structured summary of key findings relevant to the research step." },
    { role := "user",
      content := "Research step: " ++ step.description ++ "\n\nSearch results:\n" ++
        String.intercalate "\n\n" contentSamples } ]

/-- `ResearchAgent._execute_web_search_step` (lines 254-303): generate
queries, run each through the search tool accumulating the results, fetch
content samples for the first results carrying a URL, ask the model for an
analysis, then set `result` and `status = "completed"` and return the
analysis.  (The `time.sleep(1)` pacing between searches has no effect on
the data and is not modelled.) -/
def executeWebSearchStep (env : Env) (plan : ResearchPlan) (step : ResearchStep) :
    ResearchStep × String :=
  let queryResponse := env.chat (queryMessages plan step)
  let queries := parseQueries queryResponse
  let allResults := (queries.map env.search).flatten
  let contentSamples := (fetchedResults allResults).map (contentSample env)
  let analysis := env.chat (analysisMessages step contentSamples)
  ({ step with result := some analysis, status := "completed" }, analysis)

/-- `ResearchAgent._execute_pdf_step` (lines 305-310): fixed placeholder
result, `status = "completed"`, returns `step.result`. -/
def executePdfStep (step : ResearchStep) : ResearchStep × String :=
  let r := "PDF analysis step - implement based on your specific PDF sources"
  ({ step with result := some r, status := "completed" }, r)

/-- Lines 315-318: the labelled excerpts of every prior step of the plan
whose status is `"completed"` and whose result is truthy. -/
def previousFindings (plan : ResearchPlan) : List String :=
  (plan.steps.filter (fun s => s.status == "completed" && resultTruthy s.result)).map
    (fun s => "Step " ++ toString s.step_id ++ ": " ++ s.result.getD "")

/-- The messages built at lines 320-329. -/
def analysisStepMessages (plan : ResearchPlan) (step : ResearchStep) : List Message :=
  [ { role := "system",
      content := "Synthesize and analyze the research findings. Provide insights, connections, and conclusions." },
    { role := "user",
      content := "Research objective: " ++ plan.objective ++ "\nCurrent step: " ++ step.description ++
        "\n\nPrevious findings:\n" ++ String.intercalate "\n\n" (previousFindings plan) } ]

/-- `ResearchAgent._execute_analysis_step` (lines 312-336). -/
def executeAnalysisStep (env : Env) (plan : ResearchPlan) (step : ResearchStep) :
    ResearchStep × String :=
  let analysis := env.chat (analysisStepMessages plan step)
  ({ step with result := some analysis, status := "completed" }, analysis)

/-- `ResearchAgent.execute_step` (lines 242-252): set
`status = "in_progress"`, then dispatch on `tools_used` in the fixed
priority order of the `if`/`elif`/`else` chain. -/
def executeStep (env : Env) (plan : ResearchPlan) (step : ResearchStep) :
    ResearchStep × String :=
  let s := { step with status := "in_progress" }
  if "web_search" ∈ s.tools_used then
    executeWebSearchStep env plan s
  else if "pdf_reader" ∈ s.tools_used then
    executePdfStep s
  else
    executeAnalysisStep env plan s

/-- The messages built at lines 342-357 of `reflect_on_progress`, over the
steps with `status == "completed"`; each excerpt truncates the result to
200 code points (`s.result[:200]`). -/
def reflectionMessages (plan : ResearchPlan) : List Message :=
  let completedSteps := plan.steps.filter (fun s => s.status == "completed")
  [ { role := "system",
      content := "You are reflecting on research progress. Analyze what has been accomplished, \n                identify gaps, and suggest next steps or adjustments to the research plan." },
    { role := "user",
      content := "Research Topic: " ++ plan.topic ++ "\n                Objective: " ++ plan.objective ++
        "\n                \n                Completed Steps:\n                " ++
        String.intercalate "\n"
          (completedSteps.map (fun s =>
            "Step " ++ toString s.step_id ++ ": " ++ s.description ++ "\nResult: " ++
              strTake 200 (s.result.getD "") ++ "...")) } ]

/-- `ResearchAgent.reflect_on_progress` (lines 338-361): one completion
call over the completed steps; read-only with respect to the plan. -/
def reflectOnProgress (env : Env) (plan : ResearchPlan) : String :=
  env.chat (reflectionMessages plan)

/-- Lines 395-398 of `generate_final_report`: the labelled findings of the
steps with `status == "completed"` and a truthy result, in plan order. -/
def allFindings (steps : List ResearchStep) : List String :=
  (steps.filter (fun s => s.status == "completed" && resultTruthy s.result)).map
    (fun s => "## " ++ s.description ++ "\n" ++ s.result.getD "")

/-- The messages built at lines 400-420. -/
def reportMessages (plan : ResearchPlan) (steps : List ResearchStep) : List Message :=
  [ { role := "system",
      content := "Create a comprehensive research report. Include:\n                1. Executive Summary\n                2. Key Findings\n                3. Analysis and Insights\n                4. Conclusions\n                5. Areas for Further Research\n                \n                Make it well-structured and professional." },
    { role := "user",
      content := "Topic: " ++ plan.topic ++ "\n                Objective: " ++ plan.objective ++
        "\n                \n                Research Findings:\n                " ++
        String.intercalate "\n\n" (allFindings steps) } ]

/-- Line 426: the report file name `research_report_<timestamp>.txt`. -/
def reportFileName (env : Env) : String :=
  "research_report_" ++ env.timestamp ++ ".txt"

/-- Lines 428-432: the full content written to the report file (header
lines, an 80-character separator, then the report body). -/
def reportFileContent (env : Env) (plan : ResearchPlan) (finalReport : String) : String :=
  "Research Report: " ++ plan.topic ++ "\n" ++
    "Generated: " ++ env.isoNow ++ "\n" ++
    String.mk (List.replicate 80 '=') ++ "\n\n" ++ finalReport

/-- `ResearchAgent.generate_final_report` (lines 393-435): one completion
call over the assembled findings, then an unguarded file write; a raised
write error (`writeFile` returning `Except.error`) escapes the function
uncaught, so the whole call is `Except String String`. -/
def generateFinalReport (env : Env) (plan : ResearchPlan) (steps : List ResearchStep) :
    Except String String :=
  let finalReport := env.chat (reportMessages plan steps)
  match env.writeFile (reportFileName env) (reportFileContent env plan finalReport) with
  | .error e => .error e
  | .ok _ => .ok finalReport

/-- Observable events of one orchestrator run: `execute i` marks the call
`self.execute_step(step)` for the step with id `i` (line 377), `reflect`
marks a call to `self.reflect_on_progress()` (line 382), `synthesize`
marks the call to `self.generate_final_report()` (line 391). -/
inductive Event where
  | execute (id : Int)
  | reflect
  | synthesize
deriving DecidableEq, Repr

/-- Python dict assignment `d[k] = v`: replace in place if the key is
present, else append (insertion order preserved). -/
def dictInsert (k v : String) : List (String × String) → List (String × String)
  | [] => [(k, v)]
  | (k2, v2) :: rest =>
    if k2 == k then (k, v) :: rest else (k2, v2) :: dictInsert k v rest

/-- The orchestrator's mutable state during the per-step loop of
`conduct_research`: the steps after their attempt, `self.research_data`,
and the trace of collaborator invocations. -/
structure OrchState where
  doneSteps : List ResearchStep
  research_data : List (String × String)
  trace : List Event
deriving DecidableEq, Repr

/-- One iteration of the loop at lines 375-387 of `conduct_research`, for
an executor `exec` modelling `self.execute_step` (an `Except.error msg`
models an exception with `str(e) = msg` escaping it).  On success the
result is stored into `research_data` under `"step_<id>"` and, if
`step.step_id % 3 == 0`, `reflect_on_progress` is invoked; on an exception
the `except` branch sets `status = "failed"` and
`result = "Failed: " + str(e)`, and — the reflection check living inside
the `try` — no reflection happens for that step. -/
def conductStep (exec : ResearchStep → Except String (ResearchStep × String))
    (st : OrchState) (step : ResearchStep) : OrchState :=
  match exec step with
  | .ok (s2, result) =>
    { doneSteps := st.doneSteps ++ [s2],
      research_data := dictInsert ("step_" ++ toString step.step_id) result st.research_data,
      trace := st.trace ++ [Event.execute step.step_id] ++
        (if step.step_id % 3 == 0 then [Event.reflect] else []) }
  | .error msg =>
    let failedStep := { step with status := "failed", result := some ("Failed: " ++ msg) }
    { doneSteps := st.doneSteps ++ [failedStep],
      research_data := st.research_data,
      trace := st.trace ++ [Event.execute step.step_id] }

/-- The whole per-step loop of `conduct_research` (lines 375-387). -/
def conductSteps (exec : ResearchStep → Except String (ResearchStep × String))
    (steps : List ResearchStep) : OrchState :=
  steps.foldl (conductStep exec) ⟨[], [], []⟩

/-- Outcome of one full `conduct_research` run. -/
structure RunResult where
  report : Except String String
  finalSteps : List ResearchStep
  research_data : List (String × String)
  trace : List Event

/-- `ResearchAgent.conduct_research` (lines 363-391) from the point where
the plan exists: run the per-step loop, then invoke
`generate_final_report` exactly once and return its text. -/
def conductResearch (env : Env) (exec : ResearchStep → Except String (ResearchStep × String))
    (plan : ResearchPlan) : RunResult :=
  let st := conductSteps exec plan.steps
  { report := generateFinalReport env plan st.doneSteps,
    finalSteps := st.doneSteps,
    research_data := st.research_data,
    trace := st.trace ++ [Event.synthesize] }

/-- Did `execute_step` return normally (no exception) on this step? -/
def execOk (exec : ResearchStep → Except String (ResearchStep × String))
    (s : ResearchStep) : Bool :=
  match exec s with
  | .ok _ => true
  | .error _ => false

/-- The step object as it stands once its attempt is over: the executor's
output on success, the orchestrator's `failed` update on an exception. -/
def finalStep (exec : ResearchStep → Except String (ResearchStep × String))
    (s : ResearchStep) : ResearchStep :=
  match exec s with
  | .ok (s2, _) => s2
  | .error msg => { s with status := "failed", result := some ("Failed: " ++ msg) }

/-- The key under which a step's result is stored in `research_data`. -/
def keyOf (s : ResearchStep) : String :=
  "step_" ++ toString s.step_id

/-- The `research_data` entry contributed by one step's attempt, if any. -/
def dataEntry (exec : ResearchStep → Except String (ResearchStep × String))
    (s : ResearchStep) : Option (String × String) :=
  match exec s with
  | .ok (_, r) => some (keyOf s, r)
  | .error _ => none

/-- The events one loop iteration emits: the `execute_step` call, followed
by a `reflect_on_progress` call exactly when the step succeeded and its id
is a multiple of 3. -/
def perStepTrace (exec : ResearchStep → Except String (ResearchStep × String))
    (s : ResearchStep) : List Event :=
  Event.execute s.step_id ::
    (if execOk exec s && s.step_id % 3 == 0 then [Event.reflect] else [])

/-- The ids of the `execute_step` calls recorded in a trace, in order. -/
def executedIds (t : List Event) : List Int :=
  t.filterMap (fun e => match e with | .execute i => some i | _ => none)

/-- Is this event a `reflect_on_progress` call? -/
def isReflect : Event → Bool
  | .reflect => true
  | _ => false

/-- How many `reflect_on_progress` calls a trace records. -/
def reflectCount (t : List Event) : Nat :=
  (t.filter isReflect).length

/-- Is this event a `generate_final_report` call? -/
def isSynthesize : Event → Bool
  | .synthesize => true
  | _ => false

/-- How many `generate_final_report` calls a trace records. -/
def synthesizeCount (t : List Event) : Nat :=
  (t.filter isSynthesize).length

theorem conductStep_doneSteps (exec : ResearchStep → Except String (ResearchStep × String))
    (st : OrchState) (step : ResearchStep) :
    (conductStep exec st step).doneSteps = st.doneSteps ++ [finalStep exec step] := by
  cases h : exec step with
  | ok p => obtain ⟨s2, r⟩ := p; simp [conductStep, finalStep, h]
  | error msg => simp [conductStep, finalStep, h]

theorem conductStep_trace (exec : ResearchStep → Except String (ResearchStep × String))
    (st : OrchState) (step : ResearchStep) :
    (conductStep exec st step).trace = st.trace ++ perStepTrace exec step := by
  cases h : exec step with
  | ok p => obtain ⟨s2, r⟩ := p; simp [conductStep, perStepTrace, execOk, h]
  | error msg => simp [conductStep, perStepTrace, execOk, h]

theorem conductStep_data (exec : ResearchStep → Except String (ResearchStep × String))
    (st : OrchState) (step : ResearchStep) :
    (conductStep exec st step).research_data
      = match dataEntry exec step with
        | some (k, v) => dictInsert k v st.research_data
        | none => st.research_data := by
  cases h : exec step with
  | ok p => obtain ⟨s2, r⟩ := p; simp [conductStep, dataEntry, keyOf, h]
  | error msg => simp [conductStep, dataEntry, h]

theorem foldl_conductStep_doneSteps
    (exec : ResearchStep → Except String (ResearchStep × String)) :
    ∀ (steps : List ResearchStep) (st : OrchState),
    (steps.foldl (conductStep exec) st).doneSteps
      = st.doneSteps ++ steps.map (finalStep exec) := by
  intro steps
  induction steps with
  | nil => intro st; simp
  | cons s rest ih =>
    intro st
    simp only [List.foldl_cons, List.map_cons]
    rw [ih, conductStep_doneSteps]
    simp

theorem conductSteps_doneSteps
    (exec : ResearchStep → Except String (ResearchStep × String))
    (steps : List ResearchStep) :
    (conductSteps exec steps).doneSteps = steps.map (finalStep exec) := by
  unfold conductSteps
  rw [foldl_conductStep_doneSteps]
  rfl

theorem foldl_conductStep_trace
    (exec : ResearchStep → Except String (ResearchStep × String)) :
    ∀ (steps : List ResearchStep) (st : OrchState),
    (steps.foldl (conductStep exec) st).trace
      = st.trace ++ steps.flatMap (perStepTrace exec) := by
  intro steps
  induction steps with
  | nil => intro st; simp
  | cons s rest ih =>
    intro st
    simp only [List.foldl_cons, List.flatMap_cons]
    rw [ih, conductStep_trace]
    simp

theorem conductSteps_trace
    (exec : ResearchStep → Except String (ResearchStep × String))
    (steps : List ResearchStep) :
    (conductSteps exec steps).trace = steps.flatMap (perStepTrace exec) := by
  unfold conductSteps
  rw [foldl_conductStep_trace]
  rfl

theorem dictInsert_of_not_mem (k v : String) :
    ∀ (l : List (String × String)), k ∉ l.map Prod.fst →
    dictInsert k v l = l ++ [(k, v)] := by
  intro l
  induction l with
  | nil => intro h; rfl
  | cons p rest ih =>
    intro h
    obtain ⟨k2, v2⟩ := p
    simp only [List.map_cons, List.mem_cons] at h
    push_neg at h
    obtain ⟨h1, h2⟩ := h
    unfold dictInsert
    have hne : (k2 == k) = false := by
      simp only [beq_eq_false_iff_ne]
      exact fun hh => h1 hh.symm
    rw [hne]
    simp [ih h2]

theorem foldl_conductStep_data
    (exec : ResearchStep → Except String (ResearchStep × String)) :
    ∀ (steps : List ResearchStep) (st : OrchState),
    (∀ k ∈ st.research_data.map Prod.fst, k ∉ steps.map keyOf) →
    (steps.map keyOf).Nodup →
    (steps.foldl (conductStep exec) st).research_data
      = st.research_data ++ steps.filterMap (dataEntry exec) := by
  intro steps
  induction steps with
  | nil => intro st _ _; simp
  | cons s rest ih =>
    intro st hdisj hnodup
    simp only [List.map_cons, List.nodup_cons] at hnodup
    obtain ⟨hkey, hnodup2⟩ := hnodup
    have hdisj2 : ∀ k ∈ st.research_data.map Prod.fst, k ∉ rest.map keyOf := by
      intro k hk hmem
      exact hdisj k hk (by simp [hmem])
    simp only [List.foldl_cons]
    cases hexec : exec s with
    | ok p =>
      obtain ⟨s2, r⟩ := p
      have hstep : (conductStep exec st s).research_data
          = st.research_data ++ [(keyOf s, r)] := by
        rw [conductStep_data]
        simp only [dataEntry, hexec]
        exact dictInsert_of_not_mem _ _ _ (fun hmem => hdisj _ hmem (by simp))
      have hdisj3 : ∀ k ∈ (conductStep exec st s).research_data.map Prod.fst,
          k ∉ rest.map keyOf := by
        rw [hstep]
        intro k hk
        simp only [List.map_append, List.mem_append, List.map_cons] at hk
        rcases hk with hk | hk
        · exact hdisj2 k hk
        · simp at hk
          subst hk
          exact hkey
      rw [ih (conductStep exec st s) hdisj3 hnodup2, hstep]
      simp [List.filterMap_cons, dataEntry, hexec]
    | error msg =>
      have hstep : (conductStep exec st s).research_data = st.research_data := by
        rw [conductStep_data]
        simp [dataEntry, hexec]
      have hdisj3 : ∀ k ∈ (conductStep exec st s).research_data.map Prod.fst,
          k ∉ rest.map keyOf := by
        rw [hstep]; exact hdisj2
      rw [ih (conductStep exec st s) hdisj3 hnodup2, hstep]
      simp [List.filterMap_cons, dataEntry, hexec]

theorem conductSteps_data
    (exec : ResearchStep → Except String (ResearchStep × String))
    (steps : List ResearchStep) (hnodup : (steps.map keyOf).Nodup) :
    (conductSteps exec steps).research_data = steps.filterMap (dataEntry exec) := by
  unfold conductSteps
  rw [foldl_conductStep_data exec steps ⟨[], [], []⟩ (by intro k hk; simp at hk) hnodup]
  rfl

/-- Rank of a step status along the documented lifecycle
`pending → in_progress → (completed | failed)`. -/
def statusRank : String → Nat
  | "pending" => 0
  | "in_progress" => 1
  | "completed" => 2
  | "failed" => 2
  | _ => 0

/-- The successive states of one step object during its single attempt:
its state on loop entry, its state right after `execute_step` sets
`status = "in_progress"` (line 244), and its state once the attempt is
over (set either by the dispatch path on success, or by the orchestrator's
`except` branch at lines 386-387 on an exception). -/
def attemptSnapshots (exec : ResearchStep → Except String (ResearchStep × String))
    (step : ResearchStep) : List ResearchStep :=
  let s1 := { step with status := "in_progress" }
  match exec step with
  | .ok (s2, _) => [step, s1, s2]
  | .error msg => [step, s1, { s1 with status := "failed", result := some ("Failed: " ++ msg) }]

theorem take_sublist_take_succ {α : Type} :
    ∀ (m : Nat) (l : List α), List.Sublist (l.take m) (l.take (m + 1)) := by
  intro m l
  induction l generalizing m with
  | nil => simp
  | cons a t ih =>
    cases m with
    | zero => simp
    | succ k =>
      simpa using (ih k).cons₂ a

theorem filter_take_sublist_take_filter {α : Type} (p : α → Bool) :
    ∀ (n : Nat) (l : List α), List.Sublist ((l.take n).filter p) ((l.filter p).take n) := by
  intro n l
  induction l generalizing n with
  | nil => simp
  | cons a t ih =>
    cases n with
    | zero => simp
    | succ m =>
      simp only [List.take_succ_cons, List.filter_cons]
      by_cases h : p a
      · simp only [h, if_pos]
        simpa using (ih m).cons₂ a
      · simp only [h]
        simp only [Bool.false_eq_true, if_neg, if_false]
        exact (ih m).trans (take_sublist_take_succ m (t.filter p))

theorem executedIds_conductSteps
    (exec : ResearchStep → Except String (ResearchStep × String))
    (steps : List ResearchStep) :
    executedIds (conductSteps exec steps).trace = steps.map (fun s => s.step_id) := by
  rw [conductSteps_trace]
  induction steps with
  | nil => rfl
  | cons s rest ih =>
    simp only [List.flatMap_cons, List.map_cons, executedIds, List.filterMap_append]
    unfold executedIds at ih
    rw [ih]
    by_cases hc : (execOk exec s && s.step_id % 3 == 0) = true
    · simp [perStepTrace, hc]
    · simp [perStepTrace, hc]

theorem no_synthesize_in_conductSteps
    (exec : ResearchStep → Except String (ResearchStep × String))
    (steps : List ResearchStep) :
    (conductSteps exec steps).trace.filter isSynthesize = [] := by
  rw [conductSteps_trace]
  induction steps with
  | nil => rfl
  | cons s rest ih =>
    simp only [List.flatMap_cons, List.filter_append, ih]
    by_cases hc : (execOk exec s && s.step_id % 3 == 0) = true
    · simp [perStepTrace, hc, isReflect, isSynthesize]
    · simp [perStepTrace, hc, isReflect, isSynthesize]

/-- A plan of six steps with ids 1..6, all routed to the analysis path. -/
def steps16 : List ResearchStep :=
  [ { step_id := 1, description := "s1" },
    { step_id := 2, description := "s2" },
    { step_id := 3, description := "s3" },
    { step_id := 4, description := "s4" },
    { step_id := 5, description := "s5" },
    { step_id := 6, description := "s6" } ]

/-- An executor for which every step succeeds. -/
def execAllOk : ResearchStep → Except String (ResearchStep × String) :=
  fun s => .ok ({ s with status := "completed", result := some "ok" }, "ok")

/-- An executor that raises exactly on the step with id 3. -/
def exec3fail : ResearchStep → Except String (ResearchStep × String) :=
  fun s =>
    if s.step_id == 3 then .error "boom"
    else .ok ({ s with status := "completed", result := some "ok" }, "ok")

/-- C1 (counterexample): the claim says the Reflection Engine runs after
every step whose id is a multiple of 3 "regardless of whether that step
completed successfully or failed", so exactly twice for steps 1..6.  In
the run of steps 1..6 where step 3 raises, the code reflects only once
(after step 6): the reflection check lives inside the `try` block of
`conduct_research`, so an exception skips it. -/
theorem c1_counterexample :
    reflectCount (conductSteps exec3fail steps16).trace = 1
  ∧ reflectCount (conductSteps exec3fail steps16).trace ≠ 2 := by
  decide

/-- C1 (amended): the Reflection Engine is invoked exactly once after each
step whose `step_id` is a multiple of 3 AND whose execution returned
normally, and never after any other step; the trace is exactly one
`execute` event per step, each immediately followed by a `reflect` event
when that step succeeded with an id divisible by 3; in particular, for a
plan with steps 1..6 where every step succeeds, it is invoked exactly
twice, right after step 3 and right after step 6. -/
theorem c1_reflection_cadence
    (exec : ResearchStep → Except String (ResearchStep × String))
    (steps : List ResearchStep) :
    (conductSteps exec steps).trace = steps.flatMap (perStepTrace exec)
  ∧ reflectCount (conductSteps exec steps).trace
      = (steps.filter (fun s => execOk exec s && s.step_id % 3 == 0)).length
  ∧ (conductSteps execAllOk steps16).trace
      = [Event.execute 1, Event.execute 2, Event.execute 3, Event.reflect,
         Event.execute 4, Event.execute 5, Event.execute 6, Event.reflect] := by
  refine ⟨conductSteps_trace exec steps, ?_, by decide⟩
  rw [conductSteps_trace]
  induction steps with
  | nil => rfl
  | cons s rest ih =>
    simp only [List.flatMap_cons, List.filter_cons]
    unfold reflectCount at ih ⊢
    rw [List.filter_append, List.length_append, ih]
    by_cases hc : (execOk exec s && s.step_id % 3 == 0) = true
    · simp [perStepTrace, hc, isReflect, Nat.add_comm]
    · simp [perStepTrace, hc, isReflect]

theorem filterMap_dataEntry_keys
    (exec : ResearchStep → Except String (ResearchStep × String)) :
    ∀ steps : List ResearchStep,
    (steps.filterMap (dataEntry exec)).map Prod.fst = (steps.filter (execOk exec)).map keyOf := by
  intro steps
  induction steps with
  | nil => rfl
  | cons s rest ih =>
    cases hexec : exec s with
    | ok p =>
      obtain ⟨s2, r⟩ := p
      simp [List.filterMap_cons, List.filter_cons, dataEntry, execOk, hexec, ih]
    | error msg =>
      simp [List.filterMap_cons, List.filter_cons, dataEntry, execOk, hexec, ih]

/-- C2 (amended): for a plan whose step ids give distinct `research_data`
keys, after the loop `research_data` holds exactly one entry per step
whose executor returned normally — keyed `"step_<id>"`, in execution
order, carrying the returned text — and no entry at all for a step that
raised (the store at line 378 sits inside the `try`, before the `except`
branch). -/
theorem c2_accumulated_results
    (exec : ResearchStep → Except String (ResearchStep × String))
    (steps : List ResearchStep) (h : (steps.map keyOf).Nodup) :
    (conductSteps exec steps).research_data = steps.filterMap (dataEntry exec)
  ∧ (conductSteps exec steps).research_data.map Prod.fst
      = (steps.filter (execOk exec)).map keyOf
  ∧ (conductSteps exec steps).research_data.length
      = (steps.filter (execOk exec)).length := by
  have h1 := conductSteps_data exec steps h
  have h2 := filterMap_dataEntry_keys exec steps
  refine ⟨h1, by rw [h1, h2], ?_⟩
  have h3 : (conductSteps exec steps).research_data.length
      = ((conductSteps exec steps).research_data.map Prod.fst).length := by
    rw [List.length_map]
  rw [h3, h1, h2, List.length_map]

/-- A one-step plan whose only step's executor raises. -/
def c2failStep : ResearchStep :=
  { step_id := 1, description := "only step" }

/-- An executor that always raises. -/
def execAllFail : ResearchStep → Except String (ResearchStep × String) :=
  fun _ => .error "network down"

/-- C2 (counterexample): the claim says `research_data` grows by one entry
for every step that ended completed **or failed**.  In a one-step run
whose step raises, the step is attempted and ends `failed`, yet
`research_data` stays empty: line 378 only runs when `execute_step`
returns normally. -/
theorem c2_counterexample :
    (conductSteps execAllFail [c2failStep]).doneSteps
      = [{ c2failStep with status := "failed", result := some "Failed: network down" }]
  ∧ (conductSteps execAllFail [c2failStep]).research_data.length = 0
  ∧ (conductSteps execAllFail [c2failStep]).research_data.length ≠ 1 := by
  decide

/-- An executor that raises exactly on the step with id 2. -/
def execFail2 : ResearchStep → Except String (ResearchStep × String) :=
  fun s =>
    if s.step_id == 2 then .error "timeout"
    else .ok ({ s with status := "completed", result := some "r1" }, "r1")

/-- The two-step plan used to witness `c2_accumulated_results`. -/
def c2steps : List ResearchStep :=
  [ { step_id := 1, description := "a" }, { step_id := 2, description := "b" } ]

theorem c2_witness :
    (conductSteps execFail2 c2steps).research_data = c2steps.filterMap (dataEntry execFail2)
  ∧ (conductSteps execFail2 c2steps).research_data.map Prod.fst
      = (c2steps.filter (execOk execFail2)).map keyOf
  ∧ (conductSteps execFail2 c2steps).research_data.length
      = (c2steps.filter (execOk execFail2)).length :=
  c2_accumulated_results execFail2 c2steps (by decide)

/-- C3: if the executor raises for step `i` of the plan (with message
`msg`), then in the finished run that step's object has
`status = "failed"` and `result = "Failed: " ++ msg`, **every** step of the
plan — the later ones included — still gets its `execute_step` call in
plan order, and `generate_final_report` is still invoked, exactly once,
over the attempted steps. -/
theorem c3_failure_isolation (env : Env)
    (exec : ResearchStep → Except String (ResearchStep × String))
    (plan : ResearchPlan) (i : Nat) (hi : i < plan.steps.length) (msg : String)
    (herr : exec (plan.steps.get ⟨i, hi⟩) = .error msg) :
    (conductResearch env exec plan).finalSteps[i]?
      = some { plan.steps.get ⟨i, hi⟩ with status := "failed", result := some ("Failed: " ++ msg) }
  ∧ (conductResearch env exec plan).finalSteps.length = plan.steps.length
  ∧ executedIds (conductResearch env exec plan).trace = plan.steps.map (fun s => s.step_id)
  ∧ synthesizeCount (conductResearch env exec plan).trace = 1
  ∧ (conductResearch env exec plan).report
      = generateFinalReport env plan (plan.steps.map (finalStep exec)) := by
  have hdone : (conductResearch env exec plan).finalSteps
      = plan.steps.map (finalStep exec) := conductSteps_doneSteps exec plan.steps
  have htrace : (conductResearch env exec plan).trace
      = (conductSteps exec plan.steps).trace ++ [Event.synthesize] := rfl
  refine ⟨?_, ?_, ?_, ?_, ?_⟩
  · rw [hdone, List.getElem?_map]
    have : plan.steps[i]? = some (plan.steps.get ⟨i, hi⟩) := by
      rw [List.getElem?_eq_getElem hi]
      rfl
    rw [this]
    simp only [Option.map_some]
    simp only [List.get_eq_getElem] at herr
    simp [finalStep, herr]
  · rw [hdone, List.length_map]
  · rw [htrace]
    unfold executedIds
    rw [List.filterMap_append]
    have h1 := executedIds_conductSteps exec plan.steps
    unfold executedIds at h1
    rw [h1]
    simp
  · rw [htrace]
    unfold synthesizeCount
    rw [List.filter_append]
    rw [no_synthesize_in_conductSteps exec plan.steps]
    simp [isSynthesize]
  · show generateFinalReport env plan (conductSteps exec plan.steps).doneSteps
      = generateFinalReport env plan (plan.steps.map (finalStep exec))
    rw [conductSteps_doneSteps]

/-- The plan used to witness `c3_failure_isolation`. -/
def c3plan : ResearchPlan :=
  { topic := "t", objective := "o",
    steps := [ { step_id := 1, description := "a" }, { step_id := 2, description := "b" } ],
    created_at := "c", updated_at := "u" }

/-- An environment of trivial collaborators. -/
def trivEnv : Env :=
  { chat := fun _ => "", search := fun _ => [], fetchWebpage := fun _ => "",
    writeFile := fun _ _ => .ok (), timestamp := "20240101_000000",
    isoNow := "2024-01-01T00:00:00" }

/-- An executor that raises exactly on the step with id 1. -/
def execFail1 : ResearchStep → Except String (ResearchStep × String) :=
  fun s =>
    if s.step_id == 1 then .error "boom"
    else .ok ({ s with status := "completed", result := some "r2" }, "r2")

theorem c3_witness :
    (conductResearch trivEnv execFail1 c3plan).finalSteps[0]?
      = some { c3plan.steps.get ⟨0, by decide⟩ with status := "failed", result := some "Failed: boom" }
  ∧ (conductResearch trivEnv execFail1 c3plan).finalSteps.length = c3plan.steps.length
  ∧ executedIds (conductResearch trivEnv execFail1 c3plan).trace
      = c3plan.steps.map (fun s => s.step_id)
  ∧ synthesizeCount (conductResearch trivEnv execFail1 c3plan).trace = 1
  ∧ (conductResearch trivEnv execFail1 c3plan).report
      = generateFinalReport trivEnv c3plan (c3plan.steps.map (finalStep execFail1)) := by
  have h := c3_failure_isolation trivEnv execFail1 c3plan 0 (by decide) "boom" rfl
  exact h

/-- C4 (code evaluation): `generate_final_report` writes the report file
with a bare `open`/`write` (lines 428-432) and no `try`/`except`: when the
write raises, the raw exception propagates out of the function unchanged —
no report text is returned and no distinct "report generated but not
saved" style message is produced.  At the top level such an exception is
caught by the same generic handler as every other error, i.e. it is
conflated with completion-service and orchestration failures. -/
theorem c4_persistence_error_propagates (env : Env) (plan : ResearchPlan)
    (steps : List ResearchStep) (e : String)
    (h : ∀ filename content, env.writeFile filename content = Except.error e) :
    generateFinalReport env plan steps = Except.error e
  ∧ ∀ report : String, generateFinalReport env plan steps ≠ Except.ok report := by
  have h2 := h (reportFileName env)
    (reportFileContent env plan (env.chat (reportMessages plan steps)))
  constructor
  · simp [generateFinalReport, h2]
  · intro report hrep
    simp [generateFinalReport, h2] at hrep

/-- An environment whose report-file write always raises. -/
def failWriteEnv : Env :=
  { chat := fun _ => "the report", search := fun _ => [], fetchWebpage := fun _ => "",
    writeFile := fun _ _ => .error "OSError: [Errno 30] Read-only file system",
    timestamp := "20240101_000000", isoNow := "2024-01-01T00:00:00" }

/-- The plan used to witness `c4_persistence_error_propagates`. -/
def c4plan : ResearchPlan :=
  { topic := "t", objective := "o", steps := [], created_at := "c", updated_at := "u" }

theorem c4_witness :
    generateFinalReport failWriteEnv c4plan []
      = Except.error "OSError: [Errno 30] Read-only file system"
  ∧ generateFinalReport failWriteEnv c4plan [] ≠ Except.ok "the report" :=
  ⟨(c4_persistence_error_propagates failWriteEnv c4plan []
      "OSError: [Errno 30] Read-only file system" (fun _ _ => rfl)).1,
   (c4_persistence_error_propagates failWriteEnv c4plan []
      "OSError: [Errno 30] Read-only file system" (fun _ _ => rfl)).2 "the report"⟩

/-- C5: whenever no brace block is found in the completion response, or
the extracted block fails to JSON-parse, or the parsed object has no
`"steps"` key, or mapping its entries into `ResearchStep`s throws, the
Plan Builder returns exactly the fixed default plan: 6 steps with ids
1..6, steps 1-5 tagged `web_search`, step 6 with no tools, all pending;
the fallback is a fixed constant, so it never itself fails. -/
theorem c5_plan_fallback (jsonLoads : String → Except String RawPlan) (response : String)
    (h : extractJsonBlock response = none
       ∨ ∃ block, extractJsonBlock response = some block ∧
          ((∃ e, jsonLoads block = .error e)
           ∨ ∃ pd, jsonLoads block = .ok pd ∧
              (pd.steps = none
               ∨ ∃ raws, pd.steps = some raws ∧ ∃ e, raws.mapM buildStep = .error e))) :
    createResearchPlan jsonLoads response = createDefaultPlan
  ∧ createDefaultPlan.length = 6
  ∧ createDefaultPlan.map (fun s => s.step_id) = [1, 2, 3, 4, 5, 6]
  ∧ createDefaultPlan.map (fun s => s.tools_used)
      = [["web_search"], ["web_search"], ["web_search"], ["web_search"], ["web_search"], []]
  ∧ createDefaultPlan.map (fun s => s.status)
      = ["pending", "pending", "pending", "pending", "pending", "pending"] := by
  refine ⟨?_, by decide, by decide, by decide, by decide⟩
  rcases h with h | ⟨block, hb, h2⟩
  · simp [createResearchPlan, h]
  · rcases h2 with ⟨e, he⟩ | ⟨pd, hpd, h3⟩
    · simp [createResearchPlan, hb, he]
    · rcases h3 with hnone | ⟨raws, hraws, e, herr⟩
      · simp [createResearchPlan, hb, hpd, hnone]
      · have herr2 : List.mapM.loop buildStep raws [] = Except.error e := herr
        simp [createResearchPlan, hb, hpd, hraws, herr, herr2]

/-- A `json.loads` oracle that always throws. -/
def failJsonLoads : String → Except String RawPlan :=
  fun _ => .error "Expecting value: line 1 column 1 (char 0)"

theorem c5_witness :
    extractJsonBlock "I am sorry, I cannot produce a plan." = none
  ∧ createResearchPlan failJsonLoads "I am sorry, I cannot produce a plan."
      = createDefaultPlan :=
  ⟨by decide,
   (c5_plan_fallback failJsonLoads "I am sorry, I cannot produce a plan."
      (Or.inl (by decide))).1⟩

/-- C6: `execute_step` dispatches in the fixed priority order of its
`if`/`elif`/`else` chain over `tools_used`: `web_search` first, then
`pdf_reader`, else the analysis path; in particular a step tagged with
both `web_search` and `pdf_reader` takes the web-search path. -/
theorem c6_dispatch_priority (env : Env) (plan : ResearchPlan) (step : ResearchStep) :
    ("web_search" ∈ step.tools_used →
      executeStep env plan step
        = executeWebSearchStep env plan { step with status := "in_progress" })
  ∧ ("web_search" ∉ step.tools_used → "pdf_reader" ∈ step.tools_used →
      executeStep env plan step = executePdfStep { step with status := "in_progress" })
  ∧ ("web_search" ∉ step.tools_used → "pdf_reader" ∉ step.tools_used →
      executeStep env plan step
        = executeAnalysisStep env plan { step with status := "in_progress" }) := by
  refine ⟨?_, ?_, ?_⟩
  · intro h1
    simp [executeStep, h1]
  · intro h1 h2
    simp [executeStep, h1, h2]
  · intro h1 h2
    simp [executeStep, h1, h2]

/-- A step tagged with both `web_search` and `pdf_reader`. -/
def bothToolsStep : ResearchStep :=
  { step_id := 1, description := "d", tools_used := ["web_search", "pdf_reader"] }

/-- An empty plan context. -/
def trivPlan : ResearchPlan :=
  { topic := "t", objective := "o", steps := [], created_at := "c", updated_at := "u" }

/-- A step tagged only with `pdf_reader`. -/
def pdfOnlyStep : ResearchStep :=
  { step_id := 2, description := "d", tools_used := ["pdf_reader"] }

/-- A step tagged with no tools. -/
def noToolsStep : ResearchStep :=
  { step_id := 3, description := "d" }

theorem c6_witness :
    (executeStep trivEnv trivPlan bothToolsStep
      = executeWebSearchStep trivEnv trivPlan { bothToolsStep with status := "in_progress" })
  ∧ (executeStep trivEnv trivPlan pdfOnlyStep
      = executePdfStep { pdfOnlyStep with status := "in_progress" })
  ∧ (executeStep trivEnv trivPlan noToolsStep
      = executeAnalysisStep trivEnv trivPlan { noToolsStep with status := "in_progress" }) :=
  ⟨(c6_dispatch_priority trivEnv trivPlan bothToolsStep).1 (by decide),
   (c6_dispatch_priority trivEnv trivPlan pdfOnlyStep).2.1 (by decide) (by decide),
   (c6_dispatch_priority trivEnv trivPlan noToolsStep).2.2 (by decide) (by decide)⟩

/-- C7: in the web-search path, page content is fetched for at most 3
results, all of them carrying a non-empty URL and all of them among the
first 3 URL-carrying results of the accumulated list; and each fetched
text is cut to the bounded prefix `content[:1000]` (at most 1000 code
points, a prefix of the fetched text) before being placed in the analysis
prompt via `contentSample`. -/
theorem c7_fetch_bound (results : List SearchResult) (env : Env) (r : SearchResult) :
    (fetchedResults results).length ≤ 3
  ∧ (fetchedResults results).all (fun x => x.url != "") = true
  ∧ List.Sublist (fetchedResults results) ((results.filter (fun x => x.url != "")).take 3)
  ∧ contentSample env r
      = "Source: " ++ r.title ++ "\nURL: " ++ r.url ++ "\nContent: " ++
          strTake 1000 (env.fetchWebpage r.url) ++ "..."
  ∧ (∀ s : String, (strTake 1000 s).length ≤ 1000)
  ∧ (∀ s : String, strTake 1000 s ++ strDrop 1000 s = s) := by
  refine ⟨?_, ?_, ?_, rfl, ?_, ?_⟩
  · calc (fetchedResults results).length
        ≤ (results.take 3).length := List.length_filter_le _ _
      _ ≤ 3 := by simp [List.length_take]
  · simp only [List.all_eq_true]
    intro x hx
    have hx2 : x ∈ (results.take 3).filter (fun y => y.url != "") := hx
    exact (List.mem_filter.mp hx2).2
  · exact filter_take_sublist_take_filter (fun x => x.url != "") 3 results
  · intro s
    simp only [strTake, String.length]
    calc (String.mk (s.toList.take 1000)).data.length
        = (s.toList.take 1000).length := rfl
      _ ≤ 1000 := by simp [List.length_take]
  · intro s
    show String.mk (s.toList.take 1000) ++ String.mk (s.toList.drop 1000) = s
    have h : String.mk (s.toList.take 1000) ++ String.mk (s.toList.drop 1000)
        = String.mk (s.toList.take 1000 ++ s.toList.drop 1000) := rfl
    rw [h, List.take_append_drop]
    cases s
    rfl

/-- C10: on every dispatch path, when `execute_step` returns normally the
step ends with `status = "completed"` and `result` holding exactly the
returned text (and no other field changed). -/
theorem c10_execute_step_result (env : Env) (plan : ResearchPlan) (step : ResearchStep) :
    ∃ r : String,
      executeStep env plan step = ({ step with status := "completed", result := some r }, r) := by
  unfold executeStep
  by_cases h1 : "web_search" ∈ ({ step with status := "in_progress" } : ResearchStep).tools_used
  · rw [if_pos h1]
    exact ⟨_, rfl⟩
  · rw [if_neg h1]
    by_cases h2 : "pdf_reader" ∈ ({ step with status := "in_progress" } : ResearchStep).tools_used
    · rw [if_pos h2]
      exact ⟨_, rfl⟩
    · rw [if_neg h2]
      exact ⟨_, rfl⟩

/-- The `generate_final_report` filter condition, as a proposition: the
step completed and its result is a non-empty string. -/
def completedWithResult (s : ResearchStep) : Prop :=
  s.status = "completed" ∧ s.result ≠ none ∧ s.result ≠ some ""

instance (s : ResearchStep) : Decidable (completedWithResult s) := by
  unfold completedWithResult
  infer_instance

/-- The labelled section built for one step at line 398. -/
def findingEntry (s : ResearchStep) : String :=
  "## " ++ s.description ++ "\n" ++ s.result.getD ""

theorem truthiness_eq (s : ResearchStep) :
    (s.status == "completed" && resultTruthy s.result) = decide (completedWithResult s) := by
  obtain ⟨i, d, st, res, tools⟩ := s
  unfold completedWithResult
  cases res with
  | none => simp [resultTruthy]
  | some r =>
    by_cases hs : st = "completed" <;> by_cases hrr : r = "" <;>
      simp [resultTruthy, hs, hrr]

/-- Step 2 of the C8 scenario. -/
def c8step2 : ResearchStep :=
  { step_id := 2, description := "d2", status := "completed", result := some "r2" }

/-- Step 4 of the C8 scenario. -/
def c8step4 : ResearchStep :=
  { step_id := 4, description := "d4", status := "completed", result := some "r4" }

/-- The C8 scenario: only steps 2 and 4 are completed with non-empty
results; 1 and 5 are failed, 3 is pending. -/
def c8steps : List ResearchStep :=
  [ { step_id := 1, description := "d1", status := "failed", result := some "Failed: x" },
    c8step2,
    { step_id := 3, description := "d3" },
    c8step4,
    { step_id := 5, description := "d5", status := "failed", result := some "Failed: y" } ]

/-- C8: the Report Synthesizer's input excerpt consists of exactly the
steps whose status is `"completed"` and whose result is a non-empty
string, kept in plan order and mapped to their labelled sections; in the
scenario where only steps 2 and 4 qualify, the excerpt is exactly their
two sections, in that order. -/
theorem c8_report_assembly :
    (∀ steps : List ResearchStep,
      allFindings steps
        = (steps.filter (fun s => decide (completedWithResult s))).map findingEntry)
  ∧ allFindings c8steps = [findingEntry c8step2, findingEntry c8step4]
  ∧ allFindings c8steps = ["## d2\nr2", "## d4\nr4"] := by
  refine ⟨?_, by decide, by decide⟩
  intro steps
  unfold allFindings
  rw [List.filter_congr (fun x _ => truthiness_eq x)]
  rfl

/-- C9: for an executor with the concrete shape of `execute_step` (on
normal return the step is its input with `status = "completed"` and
`result` set to the returned text — proved of the embedded `execute_step`
in the C10 theorem), a step entering the loop as `pending` with no result
moves through exactly the snapshots `pending → in_progress → terminal`:
the status rank strictly increases at each transition, the terminal status
is `completed` or `failed`, and `result` is `none` on the first two
snapshots and set (exactly once) at the terminal one; moreover the loop
gives every step of the plan exactly one `execute_step` call, in plan
order, so no step is re-entered. -/
theorem c9_status_monotonic
    (exec : ResearchStep → Except String (ResearchStep × String))
    (hexec : ∀ s s2 r, exec s = .ok (s2, r) →
      s2 = { s with status := "completed", result := some r })
    (step : ResearchStep) (hs : step.status = "pending") (hr : step.result = none) :
    (∃ s2, attemptSnapshots exec step = [step, { step with status := "in_progress" }, s2]
      ∧ (s2.status = "completed" ∨ s2.status = "failed")
      ∧ s2.result ≠ none
      ∧ statusRank step.status < statusRank "in_progress"
      ∧ statusRank "in_progress" < statusRank s2.status)
  ∧ ({ step with status := "in_progress" } : ResearchStep).result = none
  ∧ (∀ steps : List ResearchStep,
      executedIds (conductSteps exec steps).trace = steps.map (fun s => s.step_id)) := by
  refine ⟨?_, hr, fun steps => executedIds_conductSteps exec steps⟩
  cases hx : exec step with
  | ok p =>
    obtain ⟨s2, r⟩ := p
    have h2 := hexec step s2 r hx
    refine ⟨s2, ?_, ?_, ?_, ?_, ?_⟩
    · unfold attemptSnapshots
      rw [hx]
    · left
      rw [h2]
    · rw [h2]
      simp
    · rw [hs]
      decide
    · rw [h2]
      show statusRank "in_progress" < statusRank "completed"
      decide
  | error msg =>
    refine ⟨{ step with status := "failed", result := some ("Failed: " ++ msg) },
      ?_, ?_, ?_, ?_, ?_⟩
    · unfold attemptSnapshots
      rw [hx]
    · right
      rfl
    · simp
    · rw [hs]
      decide
    · show statusRank "in_progress" < statusRank "failed"
      decide

/-- The step used to witness `c9_status_monotonic`. -/
def c9step : ResearchStep :=
  { step_id := 1, description := "d" }

theorem c9_witness :
    (∃ s2, attemptSnapshots execAllOk c9step
        = [c9step, { c9step with status := "in_progress" }, s2]
      ∧ (s2.status = "completed" ∨ s2.status = "failed")
      ∧ s2.result ≠ none
      ∧ statusRank c9step.status < statusRank "in_progress"
      ∧ statusRank "in_progress" < statusRank s2.status)
  ∧ ({ c9step with status := "in_progress" } : ResearchStep).result = none
  ∧ executedIds (conductSteps execAllOk [c9step]).trace = [c9step].map (fun s => s.step_id) := by
  have hexec : ∀ s s2 r, execAllOk s = .ok (s2, r) →
      s2 = { s with status := "completed", result := some r } := by
    intro s s2 r h
    have h2 := Except.ok.inj h
    cases h2
    rfl
  have h := c9_status_monotonic execAllOk hexec c9step rfl rfl
  exact ⟨h.1, h.2.1, h.2.2 [c9step]⟩
